import Mathlib

/-!
Verification of `bookwyrm/book_search.py`.

The module is a thin query-construction layer over a relational catalog of
`Edition` records.  We give a shallow embedding: the catalog is a `List Edition`,
Django queryset chains become list pipelines with the documented relational
semantics of each queryset method, and the Postgres full-text collaborator
(search-vector matching and `SearchRank` scoring, which live in the database
engine, not in this module) is a parameter `TextIndex`.
-/

/-- An `Edition` catalog row.  `published_year` models `published_date.year`
(only the year is ever read by this module); `cover = none` models a cover
field whose boolean value is false; `parent_work` is the id of the parent
`Work`.  The `models.py` declaring the full Django model is not part of the
source fragment; the fields here are exactly the ones `book_search.py` reads. -/
structure Edition where
  eid : Nat
  title : String
  author_text : String
  published_year : Option Int
  cover : Option String
  remote_id : String
  isbn_10 : String
  isbn_13 : String
  parent_work : Nat
deriving DecidableEq

/-- Modelled from the spec: the database text-search collaborator.  Section 6
requires "full-text search with multiple tokenizer configurations and
OR-combination of queries" and "a ranking function over a precomputed search
vector column".  `matched q e` models the `search_vector=query` filter for the
two-configuration OR query built from `q`; `srank q e` models the
`SearchRank(F("search_vector"), query)` score. -/
structure TextIndex where
  matched : String → Edition → Bool
  srank : String → Edition → Rat

/-- The value a Django queryset call returns: a (lazy) queryset, or — when
`return_first` asked for `.first()` — a single object or `None`. -/
inductive QRes where
  | qs : List Edition → QRes
  | single : Option Edition → QRes
deriving DecidableEq

/-- Python truthiness of a query result: a queryset is truthy iff non-empty,
`.first()`'s result is truthy iff it is not `None`. -/
def QRes.truthy : QRes → Bool
  | .qs l => !l.isEmpty
  | .single o => o.isSome

/-! ## The Python string operations used by the module

`query.strip()`, `.upper()`, `.rjust(10, "0")` and `" " in query` are modelled
on the character list of the string.  `strip` removes leading and trailing
whitespace; `upper` upper-cases character-wise; `rjust` left-pads with `'0'`
to a minimum length of 10. -/

/-- Python `str.strip()`: drop trailing, then leading, whitespace. -/
def stripL (l : List Char) : List Char :=
  (l.rdropWhile Char.isWhitespace).dropWhile Char.isWhitespace

/-- Python `str.upper()`, character-wise. -/
def upperL (l : List Char) : List Char := l.map Char.toUpper

/-- Python `str.rjust(10, "0")`: left-pad with `'0'` to length at least 10. -/
def rjustL (l : List Char) : List Char := List.replicate (10 - l.length) '0' ++ l

/-- `query.strip().upper().rjust(10, "0")` — the ISBN normalization expression
appearing verbatim in both `isbn_search` and `search_identifiers`. -/
def normL (l : List Char) : List Char := rjustL (upperL (stripL l))

/-- Python `query.strip()` on a `String`. -/
def pyStrip (s : String) : String := ⟨stripL s.data⟩

/-- `query.strip().upper().rjust(10, "0")` on a `String`. -/
def normalizeIsbn (s : String) : String := ⟨normL s.data⟩

/-- Modelled from the spec: `connectors.maybe_isbn(query)` — "a predicate
deciding whether a string plausibly encodes an ISBN" (section 6); the
`connectors` module is not under the source fragment.  Modelled as: the count
of alphanumeric characters is 9, 10 or 13 (ISBN-10 possibly missing its
leading zero, ISBN-10, or ISBN-13). -/
def maybe_isbn (q : String) : Bool :=
  let n := (q.data.filter Char.isAlphanum).length
  n == 9 || n == 10 || n == 13

/-- Modelled from the spec: the Edition fields flagged `deduplication_field`
on the Django model (section 3: "e.g., isbn_10, isbn_13, remote key");
`models.py` is not under the source fragment.  `search_identifiers` matches
the query against the logical OR of these fields. -/
def dedupFieldValues (e : Edition) : List String := [e.remote_id, e.isbn_10, e.isbn_13]

/-- Django `.filter(*filters, ...)`: all caller-supplied filter predicates
must hold (they are combined conjunctively). -/
def filtersAll (filters : List (Edition → Bool)) (e : Edition) : Bool :=
  filters.all (fun f => f e)

/-- `objects = start or models.Edition.objects`: the alternate base scope is
used when it is truthy (a non-empty queryset); `None` or an empty queryset
falls back to the full Edition table. -/
def baseOf (db : List Edition) (st : Option (List Edition)) : List Edition :=
  match st with
  | none => db
  | some l => if l.isEmpty then db else l

/-- Django `.distinct()`: keep the first occurrence of each row. -/
def distinctAux (seen : List Edition) : List Edition → List Edition
  | [] => []
  | a :: t => if a ∈ seen then distinctAux seen t else a :: distinctAux (a :: seen) t

/-- Django `.distinct()` on a result list. -/
def distinctL (l : List Edition) : List Edition := distinctAux [] l

/-! ## The ranked text query (`search_title_author`, lines 109–143)

`results = objects.filter(*filters, search_vector=query)
             .annotate(rank=SearchRank(...)).filter(rank__gt=min_confidence)
             .order_by("-rank")` -/

/-- Insert into a list kept in non-increasing `rank` order (stable). -/
def insertDesc (x : Edition × Rat) : List (Edition × Rat) → List (Edition × Rat)
  | [] => [x]
  | y :: t => if y.2 < x.2 then x :: y :: t else y :: insertDesc x t

/-- `order_by("-rank")`: stable sort, non-increasing in the annotated rank. -/
def sortDesc : List (Edition × Rat) → List (Edition × Rat)
  | [] => []
  | x :: t => insertDesc x (sortDesc t)

/-- The ranked candidate sequence of `search_title_author`: filter by the
caller's scoping filters and the full-text match, annotate each row with its
`SearchRank`, keep rows with `rank > min_confidence`, order descending by
rank. -/
def rankedResults (idx : TextIndex) (q : String) (mc : Rat)
    (filters : List (Edition → Bool)) (base : List Edition) : List (Edition × Rat) :=
  sortDesc (((base.filter (fun e => filtersAll filters e && idx.matched q e)).map
    (fun e => (e, idx.srank q e))).filter (fun p => decide (mc < p.2)))

/-! ## The work-deduplication pass (`search_title_author`, lines 127–139)

```
subquery = models.Edition.objects.annotate(
    search_rank=Subquery(results.values("rank")),
).annotate(rank=Window(expression=Rank(),
                       partition_by=[F("parent_work__id")],
                       order_by=F("search_rank").asc()))
books = models.Edition.objects.annotate(
    rank=Subquery(subquery.values("rank"))).filter(rank=1)
```

Both passes are built over the *full* Edition table (`models.Edition.objects`),
not over `results` and not over `start`, and carry none of the caller's
filters.  The uncorrelated `Subquery` is modelled as the per-row association
it expresses: each Edition's `search_rank` is its `rank` from `results`
(absent when the Edition is not among the ranked results), and each Edition's
final `rank` is its own window rank from `subquery`.  `Rank()` is the SQL
`RANK()` window function: `1 +` the number of rows of the same partition that
sort strictly earlier; tied rows receive the same rank.  Postgres `ASC`
ordering puts absent (`NULL`) keys last. -/

/-- The `search_rank` annotation: the Edition's rank from the ranked results,
if it is among them. -/
def searchRankAnn (ranked : List (Edition × Rat)) (e : Edition) : Option Rat :=
  (ranked.find? (fun p => p.1 == e)).map Prod.snd

/-- Strict comparison of `search_rank` keys under `ASC` ordering with `NULL`s
last: a present rank sorts before an absent one. -/
def optRankLt : Option Rat → Option Rat → Bool
  | some a, some b => decide (a < b)
  | some _, none => true
  | none, _ => false

/-- SQL `RANK() OVER (PARTITION BY parent_work ORDER BY search_rank ASC)`:
one plus the number of same-work rows with strictly smaller key. -/
def windowRank (db : List Edition) (ranked : List (Edition × Rat)) (e : Edition) : Nat :=
  1 + (db.filter (fun x => x.parent_work == e.parent_work
        && optRankLt (searchRankAnn ranked x) (searchRankAnn ranked e))).length

/-- `books = models.Edition.objects.annotate(rank=...).filter(rank=1)`:
the Editions of the full table whose window rank is 1, in table order
(the final query has no `order_by`). -/
def dedupBooks (db : List Edition) (ranked : List (Edition × Rat)) : List Edition :=
  db.filter (fun e => windowRank db ranked e == 1)

/-- `search_title_author(query, min_confidence, *filters, return_first=False,
dedup=True, start=None)` (lines 109–143). -/
def search_title_author (idx : TextIndex) (db : List Edition) (q : String) (mc : Rat)
    (filters : List (Edition → Bool)) (return_first : Bool) (dedup : Bool)
    (st : Option (List Edition)) : QRes :=
  let results := rankedResults idx q mc filters (baseOf db st)
  if ¬ dedup then
    if return_first then QRes.single ((results.map Prod.fst).head?)
    else QRes.qs (results.map Prod.fst)
  else
    let books := dedupBooks db results
    if return_first then QRes.single books.head? else QRes.qs books

/-- `search_identifiers(query, *filters, return_first=False, start=None)`
(lines 87–106): normalize if the query may be an ISBN, then exact-match the
OR of the deduplication fields. -/
def search_identifiers (db : List Edition) (q : String) (filters : List (Edition → Bool))
    (return_first : Bool) (st : Option (List Edition)) : QRes :=
  let key := if maybe_isbn q then normalizeIsbn q else q
  let results := distinctL ((baseOf db st).filter
    (fun e => filtersAll filters e && (dedupFieldValues e).contains key))
  if return_first then QRes.single results.head? else QRes.qs results

/-- `_generic_search(query, min_confidence=0, filters=None, return_first=False,
dedup=True, start=None)` (lines 31–52).  Note that the `dedup` parameter is
accepted but never forwarded: `search_title_author` is called without it and
so always runs with its own default `dedup=True`. -/
def _generic_search (idx : TextIndex) (db : List Edition) (q : String) (mc : Rat)
    (filters : List (Edition → Bool)) (return_first : Bool) (dedup : Bool)
    (st : Option (List Edition)) : QRes :=
  if q = "" then QRes.qs []
  else
    let qstripped := pyStrip q
    let results : Option QRes :=
      if qstripped.data.contains ' ' then none
      else some (search_identifiers db qstripped filters return_first st)
    match results with
    | some r =>
        if r.truthy then r
        else search_title_author idx db qstripped mc filters return_first true st
    | none => search_title_author idx db qstripped mc filters return_first true st

/-- `search(query, min_confidence=0, filters=None, return_first=False)`
(lines 16–19). -/
def search (idx : TextIndex) (db : List Edition) (q : String) (mc : Rat)
    (filters : List (Edition → Bool)) (return_first : Bool) : QRes :=
  _generic_search idx db q mc filters return_first true none

/-- `search_user_shelves(query, user, min_confidence=0, filters=None,
return_first=False, start=None)` (lines 22–28).  `shelf` models the implicit
`Q(shelfbook__user=user)` scoping filter ("books on the given user's
shelves"). -/
def search_user_shelves (idx : TextIndex) (db : List Edition) (shelf : Edition → Bool)
    (q : String) (mc : Rat) (filters : List (Edition → Bool)) (return_first : Bool)
    (st : Option (List Edition)) : QRes :=
  _generic_search idx db q mc (filters ++ [shelf]) return_first false st

/-- `isbn_search(query)` (lines 55–65). -/
def isbn_search (db : List Edition) (q : String) : List Edition :=
  if q = "" then []
  else
    let key := normalizeIsbn q
    distinctL (db.filter (fun e => e.isbn_10 == key || e.isbn_13 == key))

/-- The dispatch skeleton of `_generic_search` with the two search paths
abstracted, used to state which path a query can reach. -/
def genericSearchWith (ident : String → QRes) (text : String → QRes) (q : String) : QRes :=
  if q = "" then QRes.qs []
  else
    let qstripped := pyStrip q
    if qstripped.data.contains ' ' then text qstripped
    else
      let r := ident qstripped
      if r.truthy then r else text qstripped

/-! ## Order and membership facts about the ranked sequence -/

theorem mem_insertDesc {x a : Edition × Rat} {l : List (Edition × Rat)} :
    a ∈ insertDesc x l ↔ a = x ∨ a ∈ l := by
  induction l with
  | nil => simp [insertDesc]
  | cons y t ih =>
    by_cases h : y.2 < x.2
    · simp [insertDesc, h]
    · simp only [insertDesc, if_neg h, List.mem_cons, ih]
      tauto

theorem mem_sortDesc {a : Edition × Rat} {l : List (Edition × Rat)} :
    a ∈ sortDesc l ↔ a ∈ l := by
  induction l with
  | nil => simp [sortDesc]
  | cons x t ih => simp [sortDesc, mem_insertDesc, ih]

theorem pairwise_insertDesc {x : Edition × Rat} {l : List (Edition × Rat)}
    (h : l.Pairwise (fun a b => b.2 ≤ a.2)) :
    (insertDesc x l).Pairwise (fun a b => b.2 ≤ a.2) := by
  induction l with
  | nil => simp [insertDesc]
  | cons y t ih =>
    rcases List.pairwise_cons.mp h with ⟨hy, ht⟩
    by_cases hlt : y.2 < x.2
    · rw [insertDesc, if_pos hlt]
      refine List.pairwise_cons.mpr ⟨?_, h⟩
      intro z hz
      rcases List.mem_cons.mp hz with hz | hz
      · exact hz ▸ le_of_lt hlt
      · exact le_trans (hy z hz) (le_of_lt hlt)
    · rw [insertDesc, if_neg hlt]
      refine List.pairwise_cons.mpr ⟨?_, ih ht⟩
      intro z hz
      rcases mem_insertDesc.mp hz with hz | hz
      · exact hz ▸ le_of_not_lt hlt
      · exact hy z hz

theorem pairwise_sortDesc (l : List (Edition × Rat)) :
    (sortDesc l).Pairwise (fun a b => b.2 ≤ a.2) := by
  induction l with
  | nil => simp [sortDesc]
  | cons x t ih => exact pairwise_insertDesc ih

theorem mem_rankedResults {idx : TextIndex} {q : String} {mc : Rat}
    {filters : List (Edition → Bool)} {base : List Edition} {e : Edition} {r : Rat}
    (hm : (e, r) ∈ rankedResults idx q mc filters base) :
    mc < r ∧ r = idx.srank q e ∧ e ∈ base := by
  rw [rankedResults, mem_sortDesc, List.mem_filter] at hm
  obtain ⟨hmap, hmc⟩ := hm
  have hr : mc < r := of_decide_eq_true hmc
  rw [List.mem_map] at hmap
  obtain ⟨e0, he0, heq⟩ := hmap
  obtain ⟨h1, h2⟩ := Prod.mk.injEq .. ▸ heq
  subst h1
  refine ⟨hr, h2.symm, (List.mem_filter.mp he0).1⟩

/-! ## Facts about the deduplication pass -/

theorem optRankLt_cases (a b : Option Rat) :
    optRankLt a b = true ∨ optRankLt b a = true ∨ a = b := by
  match a, b with
  | none, none => exact Or.inr (Or.inr rfl)
  | none, some y => exact Or.inr (Or.inl rfl)
  | some x, none => exact Or.inl rfl
  | some x, some y =>
    rcases lt_trichotomy x y with h | h | h
    · exact Or.inl (by simp [optRankLt, h])
    · exact Or.inr (Or.inr (by rw [h]))
    · exact Or.inr (Or.inl (by simp [optRankLt, h]))

/-- Two editions of the same work both kept by the window pass carry equal
`search_rank` annotations: `RANK()` gives 1 to a row exactly when no row of
its partition sorts strictly earlier, so two kept rows cannot be strictly
ordered. -/
theorem dedupBooks_same_work {db : List Edition} {ranked : List (Edition × Rat)}
    {e1 e2 : Edition}
    (h1 : e1 ∈ dedupBooks db ranked) (h2 : e2 ∈ dedupBooks db ranked)
    (hw : e1.parent_work = e2.parent_work) :
    searchRankAnn ranked e1 = searchRankAnn ranked e2 := by
  rw [dedupBooks, List.mem_filter] at h1 h2
  obtain ⟨hd1, hr1⟩ := h1
  obtain ⟨hd2, hr2⟩ := h2
  have hw1 : windowRank db ranked e1 = 1 := eq_of_beq hr1
  have hw2 : windowRank db ranked e2 = 1 := eq_of_beq hr2
  rcases optRankLt_cases (searchRankAnn ranked e1) (searchRankAnn ranked e2)
    with hlt | hlt | hlt
  · exfalso
    have hmem : e1 ∈ db.filter (fun x => x.parent_work == e2.parent_work
        && optRankLt (searchRankAnn ranked x) (searchRankAnn ranked e2)) :=
      List.mem_filter.mpr ⟨hd1, by simp [hw, hlt]⟩
    have := List.length_pos_of_mem hmem
    rw [windowRank] at hw2
    omega
  · exfalso
    have hmem : e2 ∈ db.filter (fun x => x.parent_work == e1.parent_work
        && optRankLt (searchRankAnn ranked x) (searchRankAnn ranked e1)) :=
      List.mem_filter.mpr ⟨hd2, by simp [hw, hlt]⟩
    have := List.length_pos_of_mem hmem
    rw [windowRank] at hw1
    omega
  · exact hlt

/-! ## Character facts for the ISBN normalization -/

theorem toNat_ofNat_valid (n : Nat) (h : n < 55296) : (Char.ofNat n).toNat = n := by
  have hv : n.isValidChar := Or.inl h
  rw [Char.ofNat, dif_pos hv]
  rfl

theorem toUpper_toNat (c : Char) :
    Char.toUpper c = c ∨
      (97 ≤ c.toNat ∧ c.toNat ≤ 122 ∧ (Char.toUpper c).toNat = c.toNat - 32) := by
  by_cases h : c.toNat ≥ 97 ∧ c.toNat ≤ 122
  · right
    refine ⟨h.1, h.2, ?_⟩
    show (Char.toUpper c).toNat = c.toNat - 32
    rw [Char.toUpper]
    simp only [if_pos h]
    exact toNat_ofNat_valid _ (by omega)
  · left
    rw [Char.toUpper]
    simp only [if_neg h]

theorem eq_of_toNat_eq {c : Char} {n : Nat} (h : c.toNat = n) : c = Char.ofNat n := by
  rw [← h, Char.ofNat_toNat]

theorem isWhitespace_iff_toNat (c : Char) :
    c.isWhitespace = true ↔ (c.toNat = 32 ∨ c.toNat = 9 ∨ c.toNat = 13 ∨ c.toNat = 10) := by
  constructor
  · intro h
    simp only [Char.isWhitespace, Bool.or_eq_true, decide_eq_true_eq] at h
    rcases h with ((h | h) | h) | h <;> subst h <;> simp
  · intro h
    rcases h with h | h | h | h <;> rw [eq_of_toNat_eq h] <;> decide

theorem toUpper_isWhitespace (c : Char) :
    (Char.toUpper c).isWhitespace = c.isWhitespace := by
  rcases toUpper_toNat c with h | ⟨h1, h2, h3⟩
  · rw [h]
  · have hc : c.isWhitespace = false := by
      by_contra hx
      have := (isWhitespace_iff_toNat c).mp (by
        cases hxx : c.isWhitespace
        · exact absurd hxx hx
        · rfl)
      omega
    have hu : (Char.toUpper c).isWhitespace = false := by
      by_contra hx
      have := (isWhitespace_iff_toNat (Char.toUpper c)).mp (by
        cases hxx : (Char.toUpper c).isWhitespace
        · exact absurd hxx hx
        · rfl)
      omega
    rw [hc, hu]

theorem toUpper_eq_self_of_not_lower (c : Char)
    (h : ¬ (c.toNat ≥ 97 ∧ c.toNat ≤ 122)) : Char.toUpper c = c := by
  rw [Char.toUpper]
  simp only [if_neg h]

theorem toUpper_idem (c : Char) : Char.toUpper (Char.toUpper c) = Char.toUpper c := by
  rcases toUpper_toNat c with h | ⟨h1, h2, h3⟩
  · rw [h]
    exact h
  · exact toUpper_eq_self_of_not_lower _ (by omega)

/-! ## Fixed points and boundary characters of `strip` -/

theorem strip_eq_self_of_ends (l : List Char)
    (hh : ∀ a, l.head? = some a → a.isWhitespace = false)
    (hl : ∀ a, l.getLast? = some a → a.isWhitespace = false) :
    stripL l = l := by
  have h1 : l.rdropWhile Char.isWhitespace = l := by
    rw [List.rdropWhile_eq_self_iff]
    intro hne
    have h := hl (l.getLast hne) (List.getLast?_eq_getLast l hne)
    simp [h]
  rw [stripL, h1]
  cases l with
  | nil => rfl
  | cons a t =>
    apply List.dropWhile_cons_of_neg
    have h := hh a rfl
    simp [h]

theorem stripL_head_not (l : List Char) :
    ∀ a, (stripL l).head? = some a → a.isWhitespace = false := by
  intro a ha
  rw [stripL] at ha
  have hne : (l.rdropWhile Char.isWhitespace).dropWhile Char.isWhitespace ≠ [] := by
    intro h; rw [h] at ha; cases ha
  have hhead : ((l.rdropWhile Char.isWhitespace).dropWhile Char.isWhitespace).head hne = a := by
    rw [List.head?_eq_head hne] at ha
    exact Option.some.inj ha
  have hnot := List.head_dropWhile_not Char.isWhitespace (l.rdropWhile Char.isWhitespace) hne
  rw [hhead] at hnot
  exact hnot

theorem stripL_getLast_not (l : List Char) :
    ∀ a, (stripL l).getLast? = some a → a.isWhitespace = false := by
  intro a ha
  rw [stripL] at ha
  obtain ⟨t, ht⟩ :=
    List.dropWhile_suffix (l := l.rdropWhile Char.isWhitespace) Char.isWhitespace
  have hml : (l.rdropWhile Char.isWhitespace).getLast? = some a := by
    rw [← ht, List.getLast?_append, ha]
    rfl
  have hne : l.rdropWhile Char.isWhitespace ≠ [] := by
    intro h; rw [h] at hml; cases hml
  have hnot := List.rdropWhile_last_not Char.isWhitespace l hne
  have hlast : (l.rdropWhile Char.isWhitespace).getLast hne = a :=
    Option.some.inj ((List.getLast?_eq_getLast _ hne).symm.trans hml)
  rw [hlast] at hnot
  simpa using hnot

theorem getLast?_upperL (l : List Char) :
    (upperL l).getLast? = l.getLast?.map Char.toUpper := by
  rw [upperL, ← List.head?_reverse, ← List.map_reverse, List.head?_map, List.head?_reverse]

theorem normL_length (l : List Char) : 10 ≤ (normL l).length := by
  rw [normL, rjustL, List.length_append, List.length_replicate]
  omega

theorem stripL_normL (l : List Char) : stripL (normL l) = normL l := by
  apply strip_eq_self_of_ends
  · intro a ha
    rw [normL, rjustL] at ha
    by_cases hk : 10 - (upperL (stripL l)).length = 0
    · rw [hk, List.replicate_zero, List.nil_append, upperL, List.head?_map] at ha
      cases hht : (stripL l).head? with
      | none => rw [hht] at ha; cases ha
      | some b =>
        rw [hht] at ha
        have hb := stripL_head_not l b hht
        have heq : Char.toUpper b = a := Option.some.inj ha
        rw [← heq, toUpper_isWhitespace]
        exact hb
    · obtain ⟨k, hk2⟩ := Nat.exists_eq_succ_of_ne_zero hk
      rw [hk2, List.replicate_succ, List.cons_append, List.head?_cons] at ha
      have : a = '0' := (Option.some.inj ha).symm
      rw [this]
      decide
  · intro a ha
    rw [normL, rjustL, List.getLast?_append] at ha
    cases hul : (upperL (stripL l)).getLast? with
    | none =>
      rw [hul, Option.none_or] at ha
      -- the pad is all '0'
      have : a = '0' := by
        rcases Nat.eq_zero_or_pos (10 - (upperL (stripL l)).length) with h0 | h0
        · rw [h0, List.replicate_zero] at ha; cases ha
        · obtain ⟨k, hk2⟩ := Nat.exists_eq_succ_of_ne_zero (Nat.pos_iff_ne_zero.mp h0)
          rw [hk2] at ha
          have := List.getLast?_replicate '0' (k + 1)
          rw [this] at ha
          simp at ha
          exact ha.symm
      rw [this]; decide
    | some b =>
      rw [hul] at ha
      have hba : b = a := Option.some.inj ha
      rw [getLast?_upperL] at hul
      cases hlt : (stripL l).getLast? with
      | none => rw [hlt] at hul; cases hul
      | some c =>
        rw [hlt] at hul
        have hcb : Char.toUpper c = b := Option.some.inj hul
        have hc := stripL_getLast_not l c hlt
        rw [← hba, ← hcb, toUpper_isWhitespace]
        exact hc

theorem upperL_normL (l : List Char) : upperL (normL l) = normL l := by
  rw [normL, rjustL, upperL, List.map_append, List.map_replicate]
  have h0 : Char.toUpper '0' = '0' := by decide
  rw [h0]
  congr 1
  rw [upperL, List.map_map]
  exact List.map_congr_left (fun a _ => by simp only [Function.comp_apply, toUpper_idem])

theorem rjustL_normL (l : List Char) : rjustL (normL l) = normL l := by
  have hlen := normL_length l
  rw [rjustL]
  have h : 10 - (normL l).length = 0 := by omega
  rw [h, List.replicate_zero, List.nil_append]

/-- The ISBN normalization expression is idempotent on character lists. -/
theorem normL_idem (l : List Char) : normL (normL l) = normL l := by
  show rjustL (upperL (stripL (normL l))) = normL l
  rw [stripL_normL, upperL_normL, rjustL_normL]

/-! ## Claim theorems: ISBN normalization and `isbn_search` -/

/-- C8: ISBN normalization (strip whitespace, uppercase, left-pad with zeros
to minimum length 10) is idempotent: normalizing twice yields the same string
as normalizing once. -/
theorem normalizeIsbn_idempotent (s : String) :
    normalizeIsbn (normalizeIsbn s) = normalizeIsbn s :=
  congrArg String.mk (normL_idem s.data)

/-- C7: a 9-character ISBN missing its leading zero normalizes to the same
10-character key as the ISBN with its leading zero, so `isbn_search` returns
the same result set for both. -/
theorem isbn_search_leading_zero (db : List Edition) (l : List Char)
    (h9 : l.length = 9) (hstrip : stripL l = l) (hupper : upperL l = l) :
    isbn_search db ⟨'0' :: l⟩ = isbn_search db ⟨l⟩ := by
  have hlne : l ≠ [] := by intro h; rw [h] at h9; cases h9
  have hq1 : (⟨'0' :: l⟩ : String) ≠ "" := by
    intro h
    have h2 := congrArg String.data h
    simp at h2
  have hq2 : (⟨l⟩ : String) ≠ "" := by
    intro h
    apply hlne
    have h2 := congrArg String.data h
    simpa using h2
  have hn2 : normL l = '0' :: l := by
    rw [normL, hstrip, hupper, rjustL, h9]
    rfl
  have hn1 : normL ('0' :: l) = '0' :: l := by
    have hs : stripL ('0' :: l) = '0' :: l := by
      apply strip_eq_self_of_ends
      · intro a ha
        have h2 : a = '0' := (Option.some.inj ha).symm
        rw [h2]; decide
      · intro a ha
        cases hlt : l.getLast? with
        | none => exact absurd (List.getLast?_eq_none_iff.mp hlt) hlne
        | some c =>
          rw [List.getLast?_cons, hlt] at ha
          have hca : c = a := Option.some.inj ha
          rw [← hca]
          exact stripL_getLast_not l c (by rw [hstrip]; exact hlt)
    have hu0 : upperL ('0' :: l) = '0' :: l := by
      rw [upperL, List.map_cons]
      rw [show Char.toUpper '0' = '0' from by decide]
      rw [show List.map Char.toUpper l = l from hupper]
    rw [normL, hs, hu0, rjustL]
    have hlen : (('0' : Char) :: l).length = 10 := by simp [h9]
    rw [hlen]
    rfl
  rw [isbn_search, isbn_search, if_neg hq1, if_neg hq2]
  have hkeys : normalizeIsbn ⟨'0' :: l⟩ = normalizeIsbn ⟨l⟩ := by
    show (⟨normL ('0' :: l)⟩ : String) = ⟨normL l⟩
    rw [hn1, hn2]
  rw [hkeys]

/-- C10: `isbn_search` early-returns `[]` only on the exactly-empty query; a
non-empty whitespace-only query is stripped to the empty string, zero-padded
to `"0000000000"`, and matched against `isbn_10`/`isbn_13`. -/
theorem isbn_search_whitespace_lookup (db : List Edition) (q : String)
    (hne : q ≠ "") (hws : ∀ c ∈ q.data, c.isWhitespace = true) :
    isbn_search db q
      = distinctL (db.filter
          (fun e => e.isbn_10 == "0000000000" || e.isbn_13 == "0000000000"))
    ∧ isbn_search db "" = [] := by
  constructor
  · have hstrip : stripL q.data = [] := by
      rw [stripL]
      have h1 : q.data.rdropWhile Char.isWhitespace = [] :=
        List.rdropWhile_eq_nil_iff.mpr (fun x hx => hws x hx)
      rw [h1]
      rfl
    have hkey : normalizeIsbn q = "0000000000" := by
      show (⟨normL q.data⟩ : String) = _
      rw [normL, hstrip]
      rfl
    rw [isbn_search, if_neg hne, hkey]
  · rw [isbn_search]
    simp

/-- A concrete catalog row used to witness the ISBN claims. -/
def edHarry : Edition :=
  { eid := 1, title := "Harry Potter and the Philosopher Stone",
    author_text := "J. K. Rowling", published_year := some 1997,
    cover := some "covers/hp1.jpg", remote_id := "https://example.net/book/1",
    isbn_10 := "0747532699", isbn_13 := "9780747532699", parent_work := 1 }

theorem isbn_search_leading_zero_witness :
    isbn_search [edHarry] "0747532699" = isbn_search [edHarry] "747532699" := by
  have h := isbn_search_leading_zero [edHarry] ("747532699".data)
    (by decide) (by decide) (by decide)
  have e1 : ("0747532699" : String) = ⟨'0' :: "747532699".data⟩ := by decide
  have e2 : ("747532699" : String) = ⟨"747532699".data⟩ := rfl
  rw [e1, e2]
  exact h

/-- A concrete catalog row whose `isbn_10` is the all-zero key. -/
def edZero : Edition :=
  { eid := 2, title := "The Null Book", author_text := "Nobody",
    published_year := none, cover := none, remote_id := "z",
    isbn_10 := "0000000000", isbn_13 := "x", parent_work := 2 }

theorem isbn_search_whitespace_lookup_witness :
    ((" " : String) ≠ "") ∧
      isbn_search [edZero] " "
        = distinctL ([edZero].filter
            (fun e => e.isbn_10 == "0000000000" || e.isbn_13 == "0000000000")) := by
  refine ⟨by decide, ?_⟩
  exact (isbn_search_whitespace_lookup [edZero] " " (by decide) (by decide)).1

/-! ## The result formatter (`format_search_result`, `SearchResult`, lines 68–84 and 146–169) -/

/-- A JSON-serializable field value of the flat result mapping. -/
inductive JsonVal where
  | str : String → JsonVal
  | int : Int → JsonVal
  | num : Rat → JsonVal
  | null : JsonVal
deriving DecidableEq

/-- The `SearchResult` dataclass, fields in declaration order:
`title, key, connector, view_link=None, author=None, year=None, cover=None,
confidence=1`. -/
structure SearchResult where
  title : String
  key : String
  connector : String
  view_link : Option String
  author : Option String
  year : Option Int
  cover : Option String
  confidence : Rat
deriving DecidableEq

/-- An optional string serialized to JSON (`None` becomes `null`). -/
def optStrJson : Option String → JsonVal
  | none => JsonVal.null
  | some s => JsonVal.str s

/-- An optional integer serialized to JSON (`None` becomes `null`). -/
def optIntJson : Option Int → JsonVal
  | none => JsonVal.null
  | some n => JsonVal.int n

/-- `dataclasses.asdict(self)`: the flat mapping of all dataclass fields, in
declaration order. -/
def SearchResult.asdict (r : SearchResult) : List (String × JsonVal) :=
  [("title", JsonVal.str r.title), ("key", JsonVal.str r.key),
   ("connector", JsonVal.str r.connector), ("view_link", optStrJson r.view_link),
   ("author", optStrJson r.author), ("year", optIntJson r.year),
   ("cover", optStrJson r.cover), ("confidence", JsonVal.num r.confidence)]

/-- `SearchResult.json()`: `asdict` with the `connector` key deleted. -/
def SearchResult.json (r : SearchResult) : List (String × JsonVal) :=
  r.asdict.filter (fun kv => kv.1 != "connector")

/-- `format_search_result(search_result)` (lines 68–84).  `mediaUrl` models
the `MEDIA_FULL_URL` setting (an external configuration value); `rank` models
the optional `rank` annotation the queryset may have attached
(`hasattr(search_result, "rank")`). -/
def format_search_result (mediaUrl : String) (e : Edition) (rank : Option Rat) :
    List (String × JsonVal) :=
  let cover : Option String :=
    match e.cover with
    | some c => some (mediaUrl ++ c)
    | none => none
  SearchResult.json
    { title := e.title, key := e.remote_id, connector := "", view_link := none,
      author := some e.author_text,
      year := match e.published_year with
              | some y => some y
              | none => none,
      cover := cover,
      confidence := match rank with
                    | some r => r
                    | none => 1 }

/-- C9: `format_search_result` produces a flat mapping with exactly the keys
`title, key, view_link, author, year, cover, confidence` (the `connector`
field is omitted); `cover` is `null` when the record has no cover and the
media base URL concatenated with the stored cover path otherwise; and
`confidence` is the annotated rank when present and `1` otherwise. -/
theorem format_search_result_shape (mediaUrl : String) (e : Edition) (rank : Option Rat) :
    (format_search_result mediaUrl e rank).map Prod.fst
        = ["title", "key", "view_link", "author", "year", "cover", "confidence"]
    ∧ (format_search_result mediaUrl e rank).lookup "connector" = none
    ∧ (format_search_result mediaUrl e rank).lookup "cover"
        = some (match e.cover with
                | none => JsonVal.null
                | some p => JsonVal.str (mediaUrl ++ p))
    ∧ (format_search_result mediaUrl e rank).lookup "confidence"
        = some (JsonVal.num (match rank with
                             | some r => r
                             | none => 1)) := by
  cases hc : e.cover <;> cases rank <;>
    simp [format_search_result, SearchResult.json, SearchResult.asdict, List.lookup, hc,
      optStrJson]

/-! ## Concrete fixtures for witnesses and counterexamples -/

/-- A text index under which nothing matches the full-text query. -/
def idxNone : TextIndex := { matched := fun _ _ => false, srank := fun _ _ => 0 }

/-- A text index under which everything matches with rank 2. -/
def idxTie : TextIndex := { matched := fun _ _ => true, srank := fun _ _ => 2 }

/-- A text index ranking edition 1 at 2 and every other edition at 1. -/
def idxByEid : TextIndex :=
  { matched := fun _ _ => true, srank := fun _ e => if e.eid == 1 then 2 else 1 }

/-- A text index ranking edition 1 at 1 and every other edition at 2. -/
def idxByEidRev : TextIndex :=
  { matched := fun _ _ => true, srank := fun _ e => if e.eid == 1 then 1 else 2 }

/-- A text index under which everything matches with rank 5. -/
def idxFive : TextIndex := { matched := fun _ _ => true, srank := fun _ _ => 5 }

/-- First of two editions of the same work (work 7). -/
def edA : Edition :=
  { eid := 1, title := "A Tale of Two Cities", author_text := "Charles Dickens",
    published_year := some 1859, cover := none, remote_id := "r1",
    isbn_10 := "a1", isbn_13 := "b1", parent_work := 7 }

/-- Second of two editions of the same work (work 7). -/
def edB : Edition :=
  { eid := 2, title := "A Tale of Two Cities (paperback)", author_text := "Charles Dickens",
    published_year := some 1990, cover := none, remote_id := "r2",
    isbn_10 := "a2", isbn_13 := "b2", parent_work := 7 }

/-- An edition whose `remote_id` deduplication field is the empty string. -/
def edEmptyId : Edition :=
  { eid := 3, title := "Anon", author_text := "Anon",
    published_year := none, cover := none, remote_id := "",
    isbn_10 := "a3", isbn_13 := "b3", parent_work := 9 }

/-! ## Claim theorems: dispatch (`_generic_search`) -/

theorem generic_eq_dispatch (idx : TextIndex) (db : List Edition) (q : String) (mc : Rat)
    (filters : List (Edition → Bool)) (rf dd : Bool) (st : Option (List Edition)) :
    _generic_search idx db q mc filters rf dd st
      = genericSearchWith (fun s => search_identifiers db s filters rf st)
          (fun s => search_title_author idx db s mc filters rf true st) q := by
  rw [_generic_search, genericSearchWith]
  by_cases hq : q = ""
  · rw [if_pos hq, if_pos hq]
  · rw [if_neg hq, if_neg hq]
    by_cases hc : ' ' ∈ (pyStrip q).data
    · simp [hc]
    · simp [hc]

/-- C6: after the empty-query guard, a stripped query containing a space goes
straight to the title/author search (the identifier matcher is never invoked:
the result does not depend on the identifier path at all); a stripped query
without a space attempts the identifier matcher first, and the title/author
search runs only when that result is falsy.  The `dd` binder shows the
outcome is the same for every value of the ignored `dedup` argument. -/
theorem dispatch_identifier_first (idx : TextIndex) (db : List Edition) (q : String)
    (mc : Rat) (filters : List (Edition → Bool)) (rf dd : Bool)
    (st : Option (List Edition)) (hq : q ≠ "") :
    ((pyStrip q).data.contains ' ' = true →
        _generic_search idx db q mc filters rf dd st
          = search_title_author idx db (pyStrip q) mc filters rf true st
        ∧ ∀ ident ident' text : String → QRes,
            genericSearchWith ident text q = genericSearchWith ident' text q)
    ∧ ((pyStrip q).data.contains ' ' = false →
        _generic_search idx db q mc filters rf dd st
          = (if (search_identifiers db (pyStrip q) filters rf st).truthy
             then search_identifiers db (pyStrip q) filters rf st
             else search_title_author idx db (pyStrip q) mc filters rf true st)
        ∧ ∀ ident text text' : String → QRes, (ident (pyStrip q)).truthy = true →
            genericSearchWith ident text q = ident (pyStrip q)
            ∧ genericSearchWith ident text q = genericSearchWith ident text' q) := by
  constructor
  · intro hc
    have hm : ' ' ∈ (pyStrip q).data := by simpa using hc
    constructor
    · rw [generic_eq_dispatch, genericSearchWith, if_neg hq]
      simp [hm]
    · intro ident ident' text
      rw [genericSearchWith, genericSearchWith, if_neg hq, if_neg hq]
      simp [hm]
  · intro hc
    have hm : ¬ ' ' ∈ (pyStrip q).data := by simpa using hc
    constructor
    · rw [generic_eq_dispatch, genericSearchWith, if_neg hq]
      simp [hm]
    · intro ident text text' htr
      rw [genericSearchWith, genericSearchWith, if_neg hq, if_neg hq]
      simp [hm, htr]

theorem dispatch_identifier_first_witness :
    (("a b" : String) ≠ "")
    ∧ _generic_search idxNone [edA] "a b" 0 [] false false none
        = search_title_author idxNone [edA] "a b" 0 [] false true none := by
  refine ⟨by decide, ?_⟩
  have h := (dispatch_identifier_first idxNone [edA] "a b" 0 [] false false none
    (by decide)).1 (by decide)
  have hs : pyStrip "a b" = "a b" := by decide
  rw [hs] at h
  exact h.1

/-- C2 (amended): only the exactly-empty query triggers the early empty
return of `search`; a whitespace-only query is stripped to the empty string
and proceeds to the identifier lookup (falling back to the text path when
that is falsy) rather than returning an empty sequence immediately. -/
theorem search_empty_guard_only (idx : TextIndex) (db : List Edition) (mc : Rat)
    (filters : List (Edition → Bool)) (rf : Bool) (q : String)
    (hq : q ≠ "") (hws : ∀ c ∈ q.data, c.isWhitespace = true) :
    search idx db "" mc filters rf = QRes.qs []
    ∧ search idx db q mc filters rf
        = (if (search_identifiers db "" filters rf none).truthy
           then search_identifiers db "" filters rf none
           else search_title_author idx db "" mc filters rf true none) := by
  constructor
  · rw [search, _generic_search]
    simp
  · have hstrip : pyStrip q = "" := by
      show (⟨stripL q.data⟩ : String) = ""
      have h1 : stripL q.data = [] := by
        rw [stripL]
        rw [List.rdropWhile_eq_nil_iff.mpr (fun x hx => hws x hx)]
        rfl
      rw [h1]
    rw [search, generic_eq_dispatch, genericSearchWith, if_neg hq, hstrip]
    have hc : (("" : String).data.contains ' ') = false := rfl
    simp only [hc, Bool.false_eq_true, if_false]

theorem search_empty_guard_only_witness :
    ((" " : String) ≠ "")
    ∧ search idxNone [edEmptyId] "" 0 [] false = QRes.qs []
    ∧ search idxNone [edEmptyId] " " 0 [] false
        = (if (search_identifiers [edEmptyId] "" [] false none).truthy
           then search_identifiers [edEmptyId] "" [] false none
           else search_title_author idxNone [edEmptyId] "" 0 [] false true none) := by
  have h := search_empty_guard_only idxNone [edEmptyId] 0 [] false " "
    (by decide) (by decide)
  exact ⟨by decide, h.1, h.2⟩

/-- C2 counterexample: on a catalog holding an edition whose `remote_id`
deduplication field is the empty string, the whitespace-only query `" "`
makes `search` return that edition — not an empty sequence: the guard
`if not query` only catches the exactly-empty string, and the stripped query
`""` is then looked up by the identifier matcher. -/
theorem search_whitespace_not_empty_cex :
    search idxNone [edEmptyId] " " 0 [] false = QRes.qs [edEmptyId]
    ∧ QRes.qs [edEmptyId] ≠ QRes.qs ([] : List Edition) := by
  constructor
  · decide
  · decide

/-! ## Claim theorems: ranking, deduplication, shelf search -/

/-- C1: evaluation at the failing input.  Editions 1 and 2 belong to the same
work (work 7), both are on the user's shelf and both match the spaced query
"two cities" with distinct ranks (2 and 1) — yet `search_user_shelves`
returns only edition 2: `_generic_search` accepts `dedup=False` but never
forwards it, so `search_title_author` runs with its default `dedup=True` and
collapses the work (keeping the *ascending*-ordered first edition). -/
theorem search_user_shelves_dedups_on_text_path :
    search_user_shelves idxByEid [edA, edB] (fun _ => true) "two cities" 0 [] false none
      = QRes.qs [edB]
    ∧ edA.parent_work = edB.parent_work
    ∧ edA ≠ edB
    ∧ idxByEid.matched "two cities" edA = true
    ∧ edA ∉ [edB] := by
  refine ⟨by decide, by decide, by decide, by decide, by decide⟩

/-- C3 counterexample: the deduplicated result set of the text path contains
two distinct editions of the same parent work (neither matches the query, so
both carry an absent `search_rank`; `RANK()` ties them both at window rank 1
and the final `filter(rank=1)` keeps both). -/
theorem dedup_two_editions_same_work_cex :
    search idxNone [edA, edB] "tale two" 0 [] false = QRes.qs [edA, edB]
    ∧ edA.parent_work = edB.parent_work
    ∧ edA ≠ edB := by
  refine ⟨by decide, by decide, by decide⟩

/-- C3 (amended): two editions sharing a parent work can both survive the
deduplication pass only when their `search_rank` annotations are equal
(`RANK()` assigns tied rows — including rows absent from the ranked results —
the same window ordinal 1); same-work editions with distinct annotations
never co-occur in a deduplicated result set. -/
theorem dedup_same_work_equal_rank (idx : TextIndex) (db : List Edition) (q : String)
    (mc : Rat) (filters : List (Edition → Bool)) (st : Option (List Edition))
    (L : List Edition) (e1 e2 : Edition)
    (hm : search_title_author idx db q mc filters false true st = QRes.qs L)
    (h1 : e1 ∈ L) (h2 : e2 ∈ L) (hw : e1.parent_work = e2.parent_work) :
    searchRankAnn (rankedResults idx q mc filters (baseOf db st)) e1
      = searchRankAnn (rankedResults idx q mc filters (baseOf db st)) e2 := by
  have hrfl : search_title_author idx db q mc filters false true st
      = QRes.qs (dedupBooks db (rankedResults idx q mc filters (baseOf db st))) := rfl
  rw [hrfl] at hm
  injection hm with hL
  subst hL
  exact dedupBooks_same_work h1 h2 hw

theorem dedup_same_work_equal_rank_witness :
    searchRankAnn (rankedResults idxTie "tale" 0 [] (baseOf [edA, edB] none)) edA
      = searchRankAnn (rankedResults idxTie "tale" 0 [] (baseOf [edA, edB] none)) edB := by
  exact dedup_same_work_equal_rank idxTie [edA, edB] "tale" 0 [] none [edA, edB] edA edB
    (by decide) (by decide) (by decide) (by decide)

/-- C4 (amended): every entry of the raw ranked sequence has rank strictly
above `min_confidence`, and that rank is the entry's `SearchRank` score.
(The deduplicated result set does not satisfy the threshold: see the
counterexample.) -/
theorem ranked_above_min_confidence (idx : TextIndex) (q : String) (mc : Rat)
    (filters : List (Edition → Bool)) (base : List Edition) (e : Edition) (r : Rat)
    (hm : (e, r) ∈ rankedResults idx q mc filters base) :
    mc < r ∧ r = idx.srank q e :=
  ⟨(mem_rankedResults hm).1, (mem_rankedResults hm).2.1⟩

theorem ranked_above_min_confidence_witness :
    ((edHarry, (5 : Rat)) ∈ rankedResults idxFive "harry potter" 0 [] [edHarry])
    ∧ (0 : Rat) < 5 ∧ (5 : Rat) = idxFive.srank "harry potter" edHarry := by
  have hm : (edHarry, (5 : Rat)) ∈ rankedResults idxFive "harry potter" 0 [] [edHarry] := by
    decide
  exact ⟨hm, ranked_above_min_confidence idxFive "harry potter" 0 [] [edHarry] edHarry 5 hm⟩

/-- C4 counterexample: with `min_confidence = 0`, `search` (text path,
deduplicated) returns an edition whose relevance rank is `0 ≤ min_confidence`:
the final deduplicated query re-filters the full Edition table only by window
rank, not by the confidence threshold. -/
theorem dedup_below_confidence_cex :
    search idxNone [edZero] "x y" 0 [] false = QRes.qs [edZero]
    ∧ idxNone.srank "x y" edZero ≤ 0 := by
  refine ⟨by decide, by decide⟩

/-- C5 (amended): the raw ranked sequence of the Text Ranker is monotonically
non-increasing in rank, and `search_title_author` with `dedup=False` returns
exactly that sequence.  (The deduplicated result set is *not* reordered by
relevance: see the counterexample.) -/
theorem ranked_sorted_descending (idx : TextIndex) (db : List Edition) (q : String)
    (mc : Rat) (filters : List (Edition → Bool)) (st : Option (List Edition)) :
    (rankedResults idx q mc filters (baseOf db st)).Pairwise (fun a b => b.2 ≤ a.2)
    ∧ search_title_author idx db q mc filters false false st
        = QRes.qs ((rankedResults idx q mc filters (baseOf db st)).map Prod.fst) :=
  ⟨pairwise_sortDesc _, rfl⟩

/-- C5 counterexample: the deduplicated result set returned by `search` is in
base-table order, not in descending rank order — here the first returned
edition ranks strictly below the second (the final deduplicated query carries
no `order_by`). -/
theorem dedup_order_not_preserved_cex :
    search idxByEidRev [edHarry, edZero] "a b" 0 [] false = QRes.qs [edHarry, edZero]
    ∧ idxByEidRev.srank "a b" edHarry < idxByEidRev.srank "a b" edZero := by
  refine ⟨by decide, by decide⟩
